import Mathlib

/-!
Shallow embedding of the real-time alert-evaluation and live-broadcast
subsystem of the homelab infrastructure monitor
(`backend/app/core/alert_engine.py` and
`backend/app/api/v1/endpoints/websocket.py`), together with theorems
settling the specification claims about it.

Conventions of the embedding:
* JSON-like dynamic values (metric payloads, rule conditions) are the
  inductive type `Value`; Python `dict`s are association lists whose keys
  are unique in every concrete instance we build.
* Machine floats are modelled as rationals (`ℚ`); timestamps are integers
  measured in minutes (the schema stores `cooldown_minutes` as an integer
  column), passed explicitly where the code calls `datetime.utcnow()`.
* Fallible operations return `Option`: `none` models a raised exception
  (or, where noted, Python `None`).
* The database fetch performed by `refresh_rules_cache` is a parameter of
  type `Option (List AlertRule)`; `none` models the store raising.
* Per-connection WebSocket send outcomes are a parameter
  `sendOk : Conn → Bool`; `false` models `send_text` raising.
-/

namespace HomelabMonitor

/-- JSON-like values, as stored in JSONB columns and metric payloads. -/
inductive Value where
  | null : Value
  | bool (b : Bool) : Value
  | num (q : ℚ) : Value
  | str (s : String) : Value
  | list (xs : List Value) : Value
  | dict (fields : List (String × Value)) : Value

/-- Python truthiness (`bool(v)`) for the values we model. -/
def pyTruthy : Value → Bool
  | .null => false
  | .bool b => b
  | .num q => q ≠ 0
  | .str s => s ≠ ""
  | .list xs => !xs.isEmpty
  | .dict fs => !fs.isEmpty

/-- Python `v is None`. -/
def Value.isNull : Value → Bool
  | .null => true
  | _ => false

/-- Association-list lookup; first binding wins (keys are unique in dicts). -/
def assocLookup {α : Type} : List (String × α) → String → Option α
  | [], _ => none
  | (k, v) :: rest, key => if k = key then some v else assocLookup rest key

/-- Python `d.get(key)` on a dict: `None` (here `Value.null`) when absent. -/
def dictGet (fields : List (String × Value)) (key : String) : Value :=
  (assocLookup fields key).getD .null

/-- Overwrite-or-insert for an association list (`d[key] = v`). -/
def assocSet {α : Type} : List (String × α) → String → α → List (String × α)
  | [], key, v => [(key, v)]
  | (k, w) :: rest, key, v =>
      if k = key then (k, v) :: rest else (k, w) :: assocSet rest key v

/-- Python `del d[key]` on a dict (no-op when absent). -/
def assocErase {α : Type} : List (String × α) → String → List (String × α)
  | [], _ => []
  | (k, v) :: rest, key =>
      if k = key then assocErase rest key else (k, v) :: assocErase rest key

/-- Digits of a decimal literal folded into a natural number. -/
def digitsToNat (cs : List Char) : ℕ :=
  cs.foldl (fun a c => a * 10 + (c.toNat - 48)) 0

/-- All characters are ASCII digits. -/
def allDigits (cs : List Char) : Bool :=
  cs.all (·.isDigit)

/-- Python `float(s)` on plain decimal string literals: optional sign,
integer part, optional fractional part.  Exponent, `inf`/`nan` and
whitespace forms are out of scope of this model (no claim depends on which
strings coerce). -/
def parsePyFloat (s : String) : Option ℚ :=
  let chars := s.data
  let signed : ℤ × List Char :=
    match chars with
    | '-' :: r => (-1, r)
    | '+' :: r => (1, r)
    | r => (1, r)
  match (signed.2.splitOn '.') with
  | [ip] =>
      if allDigits ip ∧ ¬ ip.isEmpty then
        some ((signed.1 : ℚ) * (digitsToNat ip : ℚ))
      else none
  | [ip, fp] =>
      if allDigits ip ∧ allDigits fp ∧ ¬ (ip.isEmpty ∧ fp.isEmpty) then
        some ((signed.1 : ℚ) *
          ((digitsToNat ip : ℚ) + (digitsToNat fp : ℚ) / (10 : ℚ) ^ fp.length))
      else none
  | _ => none

/-- Python `float(v)`: numbers pass through, booleans become `0`/`1`,
numeric strings parse; everything else raises (`none`). -/
def pyFloat : Value → Option ℚ
  | .num q => some q
  | .bool b => some (if b then 1 else 0)
  | .str s => parsePyFloat s
  | _ => none

/-! ## Alert engine (`backend/app/core/alert_engine.py`) -/

/-- One alert rule, as the engine sees it.  `cooldownMinutes` is the
`cooldown_minutes` column of the `alert_rules` table
(`alembic/versions/001_initial_schema.py`, server default 5). -/
structure AlertRule where
  id : String
  name : String
  metricType : String
  condition : List (String × Value)
  severity : String
  cooldownMinutes : ℤ

/-- A triggered alert, carrying the fields `evaluate_metrics` populates
(the `alert_metadata` blob plus identity and severity). -/
structure Alert where
  hostId : String
  ruleId : String
  severity : String
  metricValue : ℚ
  thresholdValue : ℚ
  field : String
  operator : String
deriving DecidableEq, Repr

/-- The in-memory cooldown table `self.cooldowns`: key `rule_id:host_id`,
value the last-trigger timestamp (minutes). -/
abbrev Cooldowns : Type := List (String × ℤ)

/-- Model of `AlertEngine._check_cooldown`. -/
def check_cooldown (cds : Cooldowns) (ruleId hostId : String)
    (cooldownMinutes : ℤ) (now : ℤ) : Bool :=
  match assocLookup cds (ruleId ++ ":" ++ hostId) with
  | some lastTriggered => now - lastTriggered < cooldownMinutes
  | none => false

/-- Model of `AlertEngine._set_cooldown`. -/
def set_cooldown (cds : Cooldowns) (ruleId hostId : String) (now : ℤ) :
    Cooldowns :=
  assocSet cds (ruleId ++ ":" ++ hostId) now

/-- Python `field_path.split('.')` on the character list: splitting on a
single separator character, structurally recursive so that concrete
instances evaluate. -/
def splitDots : List Char → List (List Char)
  | [] => [[]]
  | c :: rest =>
      match splitDots rest with
      | s :: ss => if c = '.' then [] :: s :: ss else (c :: s) :: ss
      | [] => [[c]]

/-- Python `field_path.split('.')`. -/
def splitOnDots (p : String) : List String :=
  (splitDots p.data).map String.mk

/-- Core of `AlertEngine._extract_metric_value`: walk the dotted path through
nested dicts, then coerce the leaf with `float`; any miss, non-dict
intermediate, `None` leaf or coercion failure yields `none`. -/
def extractGo : Value → List String → Option ℚ
  | v, [] => if v.isNull then none else pyFloat v
  | .dict fs, key :: rest => extractGo (dictGet fs key) rest
  | _, _ :: _ => none

/-- Model of `AlertEngine._extract_metric_value` on a dotted field path. -/
def extract_metric_value (metricData : Value) (fieldPath : String) :
    Option ℚ :=
  extractGo metricData (splitOnDots fieldPath)

/-- Model of `AlertEngine._evaluate_condition`: the ten supported operator tokens,
anything else evaluates to `false`. -/
def evaluate_condition (v : ℚ) (operator : String) (t : ℚ) : Bool :=
  if operator = ">" then decide (v > t)
  else if operator = "<" then decide (v < t)
  else if operator = ">=" then decide (v ≥ t)
  else if operator = "<=" then decide (v ≤ t)
  else if operator = "==" then decide (v = t)
  else if operator = "!=" then decide (v ≠ t)
  else if operator = "gt" then decide (v > t)
  else if operator = "lt" then decide (v < t)
  else if operator = "gte" then decide (v ≥ t)
  else if operator = "lte" then decide (v ≤ t)
  else false

/-- The fallback scan over the nested condition form (`evaluate_metrics`
lines 159–166): take the first dict-valued key; its key becomes the field
and the dict's first pair becomes operator/threshold (an empty inner dict
leaves operator/threshold at their prior values). -/
def scanNested : List (String × Value) → Value × Value × Value →
    Value × Value × Value
  | [], acc => acc
  | (key, .dict inner) :: _, acc =>
      match inner with
      | [] => (.str key, acc.2.1, acc.2.2)
      | (op, thresh) :: _ => (.str key, .str op, thresh)
  | _ :: rest, acc => scanNested rest acc

/-- Validity test `all([field, operator, threshold is not None])`. -/
def condValid (field operator threshold : Value) : Bool :=
  pyTruthy field && pyTruthy operator && !threshold.isNull

/-- Condition-shape extraction in `evaluate_metrics` (lines 148–170): read
the flat `{field, operator, threshold}` keys; if incomplete, scan the
nested form; `none` when still invalid (the rule is skipped). -/
def extractConditionTriple (condition : List (String × Value)) :
    Option (Value × Value × Value) :=
  let field := dictGet condition "field"
  let operator := dictGet condition "operator"
  let threshold := dictGet condition "threshold"
  let t :=
    if condValid field operator threshold then (field, operator, threshold)
    else scanNested condition (field, operator, threshold)
  if condValid t.1 t.2.1 t.2.2 then some t else none

/-- The per-rule body of the `evaluate_metrics` loop after the cooldown
gate: extract the condition, resolve the metric value, coerce the
threshold, evaluate.  `none` models an uncaught exception (`float` on a
non-numeric threshold, a non-string field path, an unhashable operator);
`some none` a skip or non-match; `some (some a)` a triggered alert. -/
def ruleStep (rule : AlertRule) (hostId : String) (metricData : Value) :
    Option (Option Alert) :=
  match extractConditionTriple rule.condition with
  | none => some none
  | some (field, operator, threshold) =>
    match field with
    | .str fieldPath =>
      match extract_metric_value metricData fieldPath with
      | none => some none
      | some v =>
        match pyFloat threshold with
        | none => none
        | some tq =>
          match operator with
          | .str op =>
              if evaluate_condition v op tq then
                some (some ⟨hostId, rule.id, rule.severity, v, tq,
                  fieldPath, op⟩)
              else some none
          | .dict _ => none
          | .list _ => none
          | _ => some none
    | _ => none

/-- The system default cooldown, `self._default_cooldown_minutes`. -/
def defaultCooldownMinutes : ℤ := 5

/-- The rule loop of `evaluate_metrics` (lines 138–201): filter by metric
type, gate on the cooldown — always invoked with the default number of
minutes, as the code does — run the rule body, record cooldowns for
triggered alerts.  Returns the final cooldown table and `none` when an
exception escaped the loop (cooldown mutations made before it are kept). -/
def evalLoop (hostId metricType : String) (metricData : Value) (now : ℤ) :
    List AlertRule → Cooldowns → List Alert → Cooldowns × Option (List Alert)
  | [], cds, acc => (cds, some acc)
  | rule :: rest, cds, acc =>
    if rule.metricType ≠ metricType then
      evalLoop hostId metricType metricData now rest cds acc
    else if check_cooldown cds rule.id hostId defaultCooldownMinutes now then
      evalLoop hostId metricType metricData now rest cds acc
    else
      match ruleStep rule hostId metricData with
      | none => (cds, none)
      | some none => evalLoop hostId metricType metricData now rest cds acc
      | some (some alert) =>
          evalLoop hostId metricType metricData now rest
            (set_cooldown cds rule.id hostId now) (acc ++ [alert])

/-- The rule cache fields of the engine (`_rules_cache`, `_cache_time`). -/
structure CacheState where
  rulesCache : List AlertRule
  cacheTime : Option ℤ

/-- The cache TTL `self._cache_ttl` (5 minutes). -/
def cacheTtl : ℤ := 5

/-- The staleness test of `get_active_rules`:
`cache_time is None or utcnow() - cache_time > ttl`. -/
def needsRefresh (st : CacheState) (now : ℤ) : Bool :=
  match st.cacheTime with
  | none => true
  | some t => now - t > cacheTtl

/-- Model of `AlertEngine.get_active_rules`: refresh when stale, else serve the
cache.  `fetch` is the store's answer; `none` models the store raising, in
which case the exception propagates (`none` result) and the cache fields
are left as they were (the assignments in `refresh_rules_cache` are never
reached). -/
def get_active_rules (st : CacheState) (fetch : Option (List AlertRule))
    (now : ℤ) : Option (List AlertRule) × CacheState :=
  if needsRefresh st now then
    match fetch with
    | some rs => (some rs, ⟨rs, some now⟩)
    | none => (none, st)
  else (some st.rulesCache, st)

/-- The engine's mutable state relevant to evaluation. -/
structure EngineState where
  cooldowns : Cooldowns
  cache : CacheState

/-- Model of `AlertEngine.evaluate_metrics`: fetch rules (a fetch error is caught
and yields an empty alert list), then run the rule loop.  The second
component is `none` when an exception escaped the loop itself. -/
def evaluate_metrics (st : EngineState) (fetch : Option (List AlertRule))
    (hostId metricType : String) (metricData : Value) (now : ℤ) :
    EngineState × Option (List Alert) :=
  match get_active_rules st.cache fetch now with
  | (none, cache') => (⟨st.cooldowns, cache'⟩, some [])
  | (some rules, cache') =>
      let r := evalLoop hostId metricType metricData now rules st.cooldowns []
      (⟨r.1, cache'⟩, r.2)

/-! ## Connection manager (`backend/app/api/v1/endpoints/websocket.py`) -/

/-- An opaque WebSocket connection handle. -/
abbrev Conn : Type := ℕ

/-- The state of `ConnectionManager`: the all-connections set
`active_connections` and the per-host subscriber sets
`host_subscriptions`.  Python sets are modelled as duplicate-free lists;
only membership matters to the claims. -/
structure CMState where
  active : List Conn
  subs : List (String × List Conn)

/-- Python `set.add`: insert if absent. -/
def setAdd (l : List Conn) (c : Conn) : List Conn :=
  if c ∈ l then l else l ++ [c]

/-- Python `set.discard`: remove every occurrence. -/
def setDiscard (l : List Conn) (c : Conn) : List Conn :=
  l.filter (fun x => x ≠ c)

/-- The subscriber set of a host (empty when the host has no entry). -/
def subsOf (st : CMState) (hostId : String) : List Conn :=
  (assocLookup st.subs hostId).getD []

/-- Model of `ConnectionManager.connect` (after `accept`): register in the
all-connections set. -/
def connect (st : CMState) (ws : Conn) : CMState :=
  { st with active := setAdd st.active ws }

/-- Model of `ConnectionManager.disconnect`: drop from the all-connections set and
from every per-host subscriber set, deleting hosts left with no
subscribers. -/
def disconnect (st : CMState) (ws : Conn) : CMState :=
  { active := setDiscard st.active ws
    subs := (st.subs.map (fun p => (p.1, setDiscard p.2 ws))).filter
      (fun p => !p.2.isEmpty) }

/-- Model of `ConnectionManager.subscribe_to_host`: create the host's set if
missing, then add the connection.  No check of `active_connections` is
performed. -/
def subscribe_to_host (st : CMState) (ws : Conn) (hostId : String) :
    CMState :=
  { st with subs := assocSet st.subs hostId (setAdd (subsOf st hostId) ws) }

/-- Model of `ConnectionManager.unsubscribe_from_host`: if the host has a set,
discard the connection from it, deleting the entry when it empties.  No
check of `active_connections` is performed. -/
def unsubscribe_from_host (st : CMState) (ws : Conn) (hostId : String) :
    CMState :=
  match assocLookup st.subs hostId with
  | none => st
  | some cur =>
      let cur' := setDiscard cur ws
      if cur'.isEmpty then { st with subs := assocErase st.subs hostId }
      else { st with subs := assocSet st.subs hostId cur' }

/-- The send loop shared by `broadcast` and `send_to_host_subscribers`:
attempt a send to each connection in order, collecting the failures; a
failure never stops the loop.  Returns (attempted, failed). -/
def sendLoop (sendOk : Conn → Bool) : List Conn → List Conn × List Conn
  | [] => ([], [])
  | c :: rest =>
      let r := sendLoop sendOk rest
      (c :: r.1, if sendOk c then r.2 else c :: r.2)

/-- Model of `ConnectionManager.broadcast`: send to every active connection, then
disconnect each connection whose send failed.  Returns the connections a
send was attempted to and the resulting state. -/
def broadcast (st : CMState) (sendOk : Conn → Bool) :
    List Conn × CMState :=
  if st.active.isEmpty then ([], st)
  else
    let r := sendLoop sendOk st.active
    (r.1, r.2.foldl disconnect st)

/-- Model of `ConnectionManager.send_to_host_subscribers`: send to the host's
subscriber set only, with the same cleanup-on-failure. -/
def send_to_host_subscribers (st : CMState) (hostId : String)
    (sendOk : Conn → Bool) : List Conn × CMState :=
  let subscribers := subsOf st hostId
  if subscribers.isEmpty then ([], st)
  else
    let r := sendLoop sendOk subscribers
    (r.1, r.2.foldl disconnect st)

/-! ## Specification-shaped definitions and concrete fixtures -/

/-- Specification reading of field-path resolution (§4.1): repeated key
lookup through mapping levels, `none` as soon as an intermediate value is
not a mapping or a key is absent.  Stated from the spec's words, to be
compared with the source-derived `extract_metric_value`. -/
def resolvePathSpec : Value → List String → Option Value
  | v, [] => some v
  | .dict fs, key :: rest =>
      match assocLookup fs key with
      | some v => resolvePathSpec v rest
      | none => none
  | _, _ :: _ => none

/-- The flat condition shape `{"field": f, "operator": o, "threshold": t}`. -/
def flatForm (f o : String) (t : ℚ) : List (String × Value) :=
  [("field", .str f), ("operator", .str o), ("threshold", .num t)]

/-- The nested condition shape `{f: {o: t}}`. -/
def nestedForm (f o : String) (t : ℚ) : List (String × Value) :=
  [(f, .dict [(o, .num t)])]

/-- The operator tokens `_evaluate_condition` recognizes. -/
def supportedOperators : List String :=
  [">", "<", ">=", "<=", "==", "!=", "gt", "lt", "gte", "lte"]

/-- A string contains no colon (as UUID strings do not). -/
abbrev colonFree (s : String) : Prop := ':' ∉ s.data

/-- A connection `c` appears in no per-host subscriber set of `st`. -/
def notInSubs (st : CMState) (c : Conn) : Prop :=
  ∀ p ∈ st.subs, c ∉ p.2

/-- Fixture: a CPU rule in the shape of `DEFAULT_ALERT_RULES`, with the
per-rule `cooldown_minutes` column set to 1 minute. -/
def ruleHighCpu : AlertRule :=
  ⟨"r", "High CPU Usage", "cpu",
    [("field", .str "percent"), ("operator", .str ">"), ("threshold", .num 90)],
    "warning", 1⟩

/-- Fixture: a CPU metric payload reading 95 percent. -/
def mdCpu95 : Value := .dict [("percent", .num 95)]

/-- Fixture: a cache holding `ruleHighCpu`, fetched at minute 0. -/
def cacheAt0 : CacheState := ⟨[ruleHighCpu], some 0⟩

/-- Fixture: a nested CPU payload reading 92 percent. -/
def mdNested92 : Value := .dict [("cpu", .dict [("percent", .num 92)])]

/-- Fixture: a registry with connections 0 and 1 registered and both
subscribed to host `"h"`. -/
def cmTwo : CMState := ⟨[0, 1], [("h", [0, 1])]⟩

/-- Fixture: a send outcome where only connection 0 fails. -/
def sendOkExceptZero : Conn → Bool := fun c => c != 0

/-! ## Helper lemmas -/

theorem mem_of_assocLookup {α : Type} :
    ∀ {l : List (String × α)} {k : String} {v : α},
      assocLookup l k = some v → (k, v) ∈ l := by
  intro l
  induction l with
  | nil => intro k v h; simp [assocLookup] at h
  | cons p rest ih =>
      intro k v h
      obtain ⟨pk, pv⟩ := p
      by_cases hk : pk = k
      · subst hk
        simp [assocLookup] at h
        simp [h]
      · simp [assocLookup, hk] at h
        exact List.mem_cons_of_mem _ (ih h)

theorem assocLookup_set_self {α : Type} (l : List (String × α))
    (k : String) (v : α) : assocLookup (assocSet l k v) k = some v := by
  induction l with
  | nil => simp [assocSet, assocLookup]
  | cons p rest ih =>
      obtain ⟨pk, pv⟩ := p
      by_cases hk : pk = k
      · simp [assocSet, hk, assocLookup]
      · simp [assocSet, hk, assocLookup, ih]

theorem assocLookup_set_ne {α : Type} (l : List (String × α))
    {k k' : String} (v : α) (h : k' ≠ k) :
    assocLookup (assocSet l k v) k' = assocLookup l k' := by
  induction l with
  | nil => simp [assocSet, assocLookup, Ne.symm h]
  | cons p rest ih =>
      obtain ⟨pk, pv⟩ := p
      by_cases hk : pk = k
      · subst hk
        simp [assocSet, assocLookup, Ne.symm h]
      · simp only [assocSet, if_neg hk, assocLookup]
        by_cases hk' : pk = k'
        · simp [hk']
        · simp [hk', ih]

theorem assocLookup_erase_ne {α : Type} (l : List (String × α))
    {k k' : String} (h : k' ≠ k) :
    assocLookup (assocErase l k) k' = assocLookup l k' := by
  induction l with
  | nil => simp [assocErase, assocLookup]
  | cons p rest ih =>
      obtain ⟨pk, pv⟩ := p
      by_cases hk : pk = k
      · subst hk
        simp only [assocErase, if_pos rfl, assocLookup, if_neg (Ne.symm h)]
        exact ih
      · simp only [assocErase, if_neg hk, assocLookup]
        by_cases hk' : pk = k'
        · simp [hk']
        · simp [hk', ih]

theorem sendLoop_fst (sendOk : Conn → Bool) :
    ∀ l : List Conn, (sendLoop sendOk l).1 = l := by
  intro l
  induction l with
  | nil => rfl
  | cons c rest ih => simp [sendLoop, ih]

theorem sendLoop_mem_snd (sendOk : Conn → Bool) :
    ∀ (l : List Conn) (c : Conn),
      c ∈ (sendLoop sendOk l).2 ↔ c ∈ l ∧ sendOk c = false := by
  intro l
  induction l with
  | nil => intro c; simp [sendLoop]
  | cons x rest ih =>
      intro c
      by_cases hx : sendOk x
      · simp only [sendLoop, hx, if_pos]
        rw [ih]
        constructor
        · rintro ⟨hc, hf⟩
          exact ⟨List.mem_cons_of_mem _ hc, hf⟩
        · rintro ⟨hc, hf⟩
          rcases List.mem_cons.mp hc with rfl | hc
          · rw [hx] at hf; cases hf
          · exact ⟨hc, hf⟩
      · rw [Bool.not_eq_true] at hx
        simp only [sendLoop, hx, Bool.false_eq_true, if_neg, not_false_iff]
        constructor
        · intro hc
          rcases List.mem_cons.mp hc with rfl | hc
          · exact ⟨List.mem_cons_self _ _, hx⟩
          · rcases (ih c).mp hc with ⟨h1, h2⟩
            exact ⟨List.mem_cons_of_mem _ h1, h2⟩
        · rintro ⟨hc, hf⟩
          rcases List.mem_cons.mp hc with rfl | hc
          · exact List.mem_cons_self _ _
          · exact List.mem_cons_of_mem _ ((ih c).mpr ⟨hc, hf⟩)

theorem append_cons_inj {c : Char} :
    ∀ {l₁ l₂ t₁ t₂ : List Char}, c ∉ l₁ → c ∉ l₂ →
      l₁ ++ c :: t₁ = l₂ ++ c :: t₂ → l₁ = l₂ ∧ t₁ = t₂ := by
  intro l₁
  induction l₁ with
  | nil =>
      intro l₂ t₁ t₂ _ h₂ h
      cases l₂ with
      | nil => simpa using h
      | cons x l₂' =>
          simp only [List.nil_append, List.cons_append, List.cons.injEq] at h
          exact absurd (h.1 ▸ List.mem_cons_self x l₂') h₂
  | cons y l₁' ih =>
      intro l₂ t₁ t₂ h₁ h₂ h
      cases l₂ with
      | nil =>
          simp only [List.cons_append, List.nil_append, List.cons.injEq] at h
          exact absurd (h.1 ▸ List.mem_cons_self y l₁') h₁
      | cons x l₂' =>
          simp only [List.cons_append, List.cons.injEq] at h
          have h₁' : c ∉ l₁' := fun hm => h₁ (List.mem_cons_of_mem _ hm)
          have h₂' : c ∉ l₂' := fun hm => h₂ (List.mem_cons_of_mem _ hm)
          obtain ⟨he, ht⟩ := ih h₁' h₂' h.2
          exact ⟨by rw [h.1, he], ht⟩

theorem cooldownKey_inj {r₁ h₁ r₂ h₂ : String}
    (hr₁ : colonFree r₁) (hr₂ : colonFree r₂)
    (h : r₁ ++ ":" ++ h₁ = r₂ ++ ":" ++ h₂) : r₁ = r₂ ∧ h₁ = h₂ := by
  have hd : r₁.data ++ ':' :: h₁.data = r₂.data ++ ':' :: h₂.data := by
    have := congrArg String.data h
    simpa [String.data_append] using this
  obtain ⟨he, ht⟩ := append_cons_inj hr₁ hr₂ hd
  exact ⟨String.ext he, String.ext ht⟩

theorem disconnect_active_mem (st : CMState) (ws c : Conn) :
    c ∈ (disconnect st ws).active ↔ c ∈ st.active ∧ c ≠ ws := by
  simp [disconnect, setDiscard, List.mem_filter]

theorem disconnect_scrubs (st : CMState) (ws : Conn) :
    notInSubs (disconnect st ws) ws := by
  intro p hp
  simp only [disconnect, List.mem_filter, List.mem_map] at hp
  obtain ⟨⟨q, hq, rfl⟩, _⟩ := hp
  simp [setDiscard, List.mem_filter]

theorem disconnect_preserves_notInSubs (st : CMState) (w c : Conn)
    (h : notInSubs st c) : notInSubs (disconnect st w) c := by
  intro p hp
  simp only [disconnect, List.mem_filter, List.mem_map] at hp
  obtain ⟨⟨q, hq, rfl⟩, _⟩ := hp
  intro hmem
  exact h q hq (List.mem_of_mem_filter hmem)

theorem notInSubs_subsOf {st : CMState} {c : Conn} (h : notInSubs st c)
    (hostId : String) : c ∉ subsOf st hostId := by
  unfold subsOf
  cases hl : assocLookup st.subs hostId with
  | none => simp
  | some v =>
      simp only [Option.getD_some]
      exact h (hostId, v) (mem_of_assocLookup hl)

theorem foldl_disconnect_preserves (c : Conn) :
    ∀ (l : List Conn) (st : CMState), c ∉ st.active → notInSubs st c →
      c ∉ (l.foldl disconnect st).active ∧
        notInSubs (l.foldl disconnect st) c := by
  intro l
  induction l with
  | nil => intro st h1 h2; exact ⟨h1, h2⟩
  | cons w rest ih =>
      intro st h1 h2
      refine ih (disconnect st w) ?_ ?_
      · intro hm
        exact h1 ((disconnect_active_mem st w c).mp hm).1
      · exact disconnect_preserves_notInSubs st w c h2

theorem foldl_disconnect_gone (c : Conn) :
    ∀ (l : List Conn) (st : CMState), c ∈ l →
      c ∉ (l.foldl disconnect st).active ∧
        notInSubs (l.foldl disconnect st) c := by
  intro l
  induction l with
  | nil => intro st h; cases h
  | cons w rest ih =>
      intro st hc
      rcases List.mem_cons.mp hc with rfl | hc
      · by_cases hm : c ∈ rest
        · exact ih (disconnect st c) hm
        · refine foldl_disconnect_preserves c rest (disconnect st c) ?_ ?_
          · intro hmem
            exact ((disconnect_active_mem st c c).mp hmem).2 rfl
          · exact disconnect_scrubs st c
      · exact ih (disconnect st w) hc

theorem assocLookup_erase_self {α : Type} (l : List (String × α))
    (k : String) : assocLookup (assocErase l k) k = none := by
  induction l with
  | nil => rfl
  | cons p rest ih =>
      obtain ⟨pk, pv⟩ := p
      by_cases hk : pk = k
      · simp [assocErase, hk, ih]
      · simp [assocErase, hk, assocLookup, ih]

theorem mem_setAdd (l : List Conn) (x c : Conn) :
    c ∈ setAdd l x ↔ c ∈ l ∨ c = x := by
  unfold setAdd
  by_cases hx : x ∈ l
  · simp only [if_pos hx]
    constructor
    · exact Or.inl
    · rintro (h | rfl)
      · exact h
      · exact hx
  · simp [hx, List.mem_append]

theorem mem_setDiscard (l : List Conn) (x c : Conn) :
    c ∈ setDiscard l x ↔ c ∈ l ∧ c ≠ x := by
  simp [setDiscard, List.mem_filter]

/-! ## Claim theorems: connection registry -/

/-- C3 (counterexample): `subscribe_to_host` and `unsubscribe_from_host`
are not no-ops for a connection absent from the all-connections set.
Connection 0 is unregistered, yet subscribing it changes host `"h"`'s
subscriber set, and unsubscribing it from a state where it is subscribed
but unregistered also changes the set. -/
theorem claim_C3_counterexample :
    (0 : Conn) ∉ (⟨[], []⟩ : CMState).active ∧
      subsOf (subscribe_to_host ⟨[], []⟩ 0 "h") "h" ≠
        subsOf (⟨[], []⟩ : CMState) "h" ∧
      (0 : Conn) ∉ (⟨[], [("h", [0])]⟩ : CMState).active ∧
      subsOf (unsubscribe_from_host ⟨[], [("h", [0])]⟩ 0 "h") "h" ≠
        subsOf (⟨[], [("h", [0])]⟩ : CMState) "h" := by
  refine ⟨by simp, ?_, by simp, ?_⟩ <;> decide

/-- C3 (amended): `subscribe_to_host` and `unsubscribe_from_host` mutate
the per-host subscriber set unconditionally — no check against the
all-connections set is performed.  Subscribing adds exactly the given
connection to the given host's set, and unsubscribing removes exactly it,
for every registry state (registered or not). -/
theorem claim_C3_subscription_mutates (st : CMState) (ws : Conn)
    (hostId : String) (c : Conn) (h' : String) :
    (c ∈ subsOf (subscribe_to_host st ws hostId) h' ↔
      c ∈ subsOf st h' ∨ (c = ws ∧ h' = hostId)) ∧
    (c ∈ subsOf (unsubscribe_from_host st ws hostId) h' ↔
      c ∈ subsOf st h' ∧ ¬(c = ws ∧ h' = hostId)) := by
  constructor
  · show c ∈ subsOf ⟨st.active, assocSet st.subs hostId _⟩ h' ↔ _
    by_cases hh : h' = hostId
    · subst hh
      unfold subsOf
      rw [assocLookup_set_self]
      simp [mem_setAdd, subsOf]
    · unfold subsOf
      rw [assocLookup_set_ne _ _ hh]
      simp [hh]
  · unfold unsubscribe_from_host
    cases hl : assocLookup st.subs hostId with
    | none =>
        by_cases hh : h' = hostId
        · subst hh
          simp [subsOf, hl]
        · simp [hh]
    | some cur =>
        simp only []
        by_cases hemp : (setDiscard cur ws).isEmpty
        · simp only [if_pos hemp]
          by_cases hh : h' = hostId
          · subst hh
            unfold subsOf
            simp only []
            rw [assocLookup_erase_self, hl]
            simp only [Option.getD_some, Option.getD_none,
              List.not_mem_nil, false_iff]
            rintro ⟨hc, hne⟩
            have : c ∈ setDiscard cur ws :=
              (mem_setDiscard cur ws c).mpr ⟨hc, fun e => hne ⟨e, by trivial⟩⟩
            rw [List.isEmpty_iff] at hemp
            rw [hemp] at this
            cases this
          · unfold subsOf
            simp only []
            rw [assocLookup_erase_ne _ hh]
            simp [hh]
        · simp only [if_neg hemp]
          by_cases hh : h' = hostId
          · subst hh
            unfold subsOf
            simp only []
            rw [assocLookup_set_self, hl]
            simp only [Option.getD_some, mem_setDiscard]
            simp
          · unfold subsOf
            simp only []
            rw [assocLookup_set_ne _ _ hh]
            simp [hh]

/-- C6: `broadcast` attempts delivery to every connection in the
all-connections set (a failing send never aborts the loop), and every
connection whose send fails is, as a side effect, removed from the
all-connections set and from every per-host subscription set. -/
theorem claim_C6_broadcast (st : CMState) (sendOk : Conn → Bool) (c : Conn)
    (hc : c ∈ st.active) :
    c ∈ (broadcast st sendOk).1 ∧
      (sendOk c = false →
        c ∉ (broadcast st sendOk).2.active ∧
          ∀ h, c ∉ subsOf (broadcast st sendOk).2 h) := by
  have hne : st.active.isEmpty = false := by
    cases hl : st.active with
    | nil => rw [hl] at hc; cases hc
    | cons x xs => simp
  constructor
  · simp only [broadcast, hne, Bool.false_eq_true, if_neg, not_false_iff]
    rw [sendLoop_fst]
    exact hc
  · intro hfail
    simp only [broadcast, hne, Bool.false_eq_true, if_neg, not_false_iff]
    have hmem : c ∈ (sendLoop sendOk st.active).2 :=
      (sendLoop_mem_snd sendOk st.active c).mpr ⟨hc, hfail⟩
    obtain ⟨h1, h2⟩ := foldl_disconnect_gone c (sendLoop sendOk st.active).2 st hmem
    exact ⟨h1, fun h => notInSubs_subsOf h2 h⟩

/-- C9: `send_to_host_subscribers` attempts delivery exactly to the
subscriber set of the given host: a connection receives the message's send
if and only if it is subscribed to that host. -/
theorem claim_C9_send_to_subscribers (st : CMState) (hostId : String)
    (sendOk : Conn → Bool) (c : Conn) :
    c ∈ (send_to_host_subscribers st hostId sendOk).1 ↔
      c ∈ subsOf st hostId := by
  unfold send_to_host_subscribers
  by_cases he : (subsOf st hostId).isEmpty
  · rw [List.isEmpty_iff] at he
    simp [he]
  · simp only [he, Bool.false_eq_true, if_neg, not_false_iff,
      Bool.not_eq_true] at *
    simp [he, sendLoop_fst]

/-! ## Claim theorems: alert engine -/

theorem extractGo_null (keys : List String) : extractGo .null keys = none := by
  cases keys <;> rfl

/-- C7: field-path extraction equals path resolution by repeated key
lookup followed by float coercion: whenever every intermediate value is a
mapping and the leaf coerces, the coerced leaf is returned; a non-mapping
intermediate, an absent key, a `None` leaf or a failing coercion all yield
"no value" — and the function is total, so it never raises. -/
theorem claim_C7_extraction (md : Value) (p : String) :
    extract_metric_value md p =
      (resolvePathSpec md (splitOnDots p)).bind pyFloat := by
  unfold extract_metric_value
  generalize splitOnDots p = keys
  induction keys generalizing md with
  | nil =>
      cases md <;> simp [extractGo, resolvePathSpec, pyFloat, Value.isNull]
  | cons k rest ih =>
      cases md with
      | dict fs =>
          show extractGo (dictGet fs k) rest = _
          cases hl : assocLookup fs k with
          | none =>
              rw [show dictGet fs k = .null by simp [dictGet, hl]]
              rw [extractGo_null]
              simp [resolvePathSpec, hl]
          | some v =>
              rw [show dictGet fs k = v by simp [dictGet, hl]]
              rw [ih]
              simp [resolvePathSpec, hl]
      | null => rfl
      | bool b => rfl
      | num q => rfl
      | str s => rfl
      | list xs => rfl

/-- C8 (counterexample): the word alias of the equality operator is not
accepted — `_evaluate_condition` with token `"eq"` returns `false` even on
equal values, where the mathematical comparison holds. -/
theorem claim_C8_counterexample :
    evaluate_condition 0 "eq" 0 = false ∧ (0 : ℚ) = 0 := by
  exact ⟨by decide, rfl⟩

/-- C8 (amended): the four ordering operators are accepted in both their
symbolic and word-alias spellings, equality and not-equality only in their
symbolic spellings (`==`, `!=`); every supported token evaluates as the
standard mathematical comparison, and every token outside the supported
set evaluates to `false` (the function is total, so it never raises). -/
theorem claim_C8_operators (v t : ℚ) :
    evaluate_condition v ">" t = decide (v > t) ∧
    evaluate_condition v "gt" t = decide (v > t) ∧
    evaluate_condition v "<" t = decide (v < t) ∧
    evaluate_condition v "lt" t = decide (v < t) ∧
    evaluate_condition v ">=" t = decide (v ≥ t) ∧
    evaluate_condition v "gte" t = decide (v ≥ t) ∧
    evaluate_condition v "<=" t = decide (v ≤ t) ∧
    evaluate_condition v "lte" t = decide (v ≤ t) ∧
    evaluate_condition v "==" t = decide (v = t) ∧
    evaluate_condition v "!=" t = decide (v ≠ t) ∧
    ∀ op : String, op ∉ supportedOperators → evaluate_condition v op t = false := by
  refine ⟨by simp [evaluate_condition], by simp [evaluate_condition],
    by simp [evaluate_condition], by simp [evaluate_condition],
    by simp [evaluate_condition], by simp [evaluate_condition],
    by simp [evaluate_condition], by simp [evaluate_condition],
    by simp [evaluate_condition], by simp [evaluate_condition], ?_⟩
  intro op hop
  have n1 : ¬ op = ">" := fun e => hop (by rw [e]; decide)
  have n2 : ¬ op = "<" := fun e => hop (by rw [e]; decide)
  have n3 : ¬ op = ">=" := fun e => hop (by rw [e]; decide)
  have n4 : ¬ op = "<=" := fun e => hop (by rw [e]; decide)
  have n5 : ¬ op = "==" := fun e => hop (by rw [e]; decide)
  have n6 : ¬ op = "!=" := fun e => hop (by rw [e]; decide)
  have n7 : ¬ op = "gt" := fun e => hop (by rw [e]; decide)
  have n8 : ¬ op = "lt" := fun e => hop (by rw [e]; decide)
  have n9 : ¬ op = "gte" := fun e => hop (by rw [e]; decide)
  have n10 : ¬ op = "lte" := fun e => hop (by rw [e]; decide)
  unfold evaluate_condition
  rw [if_neg n1, if_neg n2, if_neg n3, if_neg n4, if_neg n5, if_neg n6,
    if_neg n7, if_neg n8, if_neg n9, if_neg n10]

/-- C8 (witness): the unknown-operator clause of `claim_C8_operators`
instantiated at the token `"foo"`. -/
theorem claim_C8_operators_witness :
    ("foo" : String) ∉ supportedOperators ∧
      evaluate_condition 1 "foo" 2 = false :=
  ⟨by decide,
    (claim_C8_operators 1 2).2.2.2.2.2.2.2.2.2.2 "foo" (by decide)⟩

/-- C2 (counterexample): with a non-empty but stale snapshot and a failing
store fetch, `get_active_rules` raises to its caller (result `none`)
instead of returning the previous snapshot or an empty sequence. -/
theorem claim_C2_counterexample :
    (get_active_rules cacheAt0 none 10).1 = none ∧
      cacheAt0.rulesCache = [ruleHighCpu] := by
  exact ⟨rfl, rfl⟩

/-- C2 (amended): when the cache must be refreshed and the store fetch
fails, `get_active_rules` propagates the failure to its caller; it is
`evaluate_metrics` that catches it and returns an empty alert sequence,
leaving the engine state unchanged — the previous snapshot is never
returned on a failed fetch. -/
theorem claim_C2_fetch_failure (st : EngineState) (hostId mt : String)
    (md : Value) (now : ℤ) (h : needsRefresh st.cache now = true) :
    (get_active_rules st.cache none now).1 = none ∧
      evaluate_metrics st none hostId mt md now = (st, some []) := by
  constructor
  · simp [get_active_rules, h]
  · simp [evaluate_metrics, get_active_rules, h]

/-- C2 (witness): `claim_C2_fetch_failure` at a stale cache holding one
rule. -/
theorem claim_C2_fetch_failure_witness :
    needsRefresh cacheAt0 10 = true ∧
      (get_active_rules cacheAt0 none 10).1 = none ∧
      evaluate_metrics ⟨[], cacheAt0⟩ none "h" "cpu" mdCpu95 10 =
        (⟨[], cacheAt0⟩, some []) :=
  ⟨by decide,
    (claim_C2_fetch_failure ⟨[], cacheAt0⟩ "h" "cpu" mdCpu95 10 (by decide)).1,
    (claim_C2_fetch_failure ⟨[], cacheAt0⟩ "h" "cpu" mdCpu95 10 (by decide)).2⟩

/-- C10: the cooldown table key is the string `ruleId ++ ":" ++ hostId`,
so pair identity is only as fine as that encoding: the distinct pairs
`("a:b", "c")` and `("a", "b:c")` collide — recording a trigger for the
first makes the check report the second as in cooldown — while for
colon-free id strings (as UUIDs are) recording a trigger for one pair
never changes the cooldown check of a different pair. -/
theorem claim_C10_cooldown_key :
    (check_cooldown (set_cooldown [] "a:b" "c" 0) "a" "b:c" 5 1 = true) ∧
    (∀ (r₁ h₁ r₂ h₂ : String) (cds : Cooldowns) (c now tm : ℤ),
      colonFree r₁ → colonFree h₁ → colonFree r₂ → colonFree h₂ →
      (r₁, h₁) ≠ (r₂, h₂) →
      check_cooldown (set_cooldown cds r₁ h₁ tm) r₂ h₂ c now =
        check_cooldown cds r₂ h₂ c now) := by
  constructor
  · decide
  · intro r₁ h₁ r₂ h₂ cds c now tm hr₁ _ hr₂ _ hne
    have hkey : r₂ ++ ":" ++ h₂ ≠ r₁ ++ ":" ++ h₁ := by
      intro he
      obtain ⟨e1, e2⟩ := cooldownKey_inj hr₂ hr₁ he
      exact hne (by rw [e1, e2])
    unfold check_cooldown set_cooldown
    rw [assocLookup_set_ne _ _ hkey]

/-- C10 (witness): the colon-free independence clause of
`claim_C10_cooldown_key` at the distinct pairs `("a", "b")` and
`("a", "c")`. -/
theorem claim_C10_cooldown_key_witness :
    colonFree "a" ∧ colonFree "b" ∧ colonFree "c" ∧
      (("a", "b") ≠ (("a", "c") : String × String)) ∧
      check_cooldown (set_cooldown [] "a" "b" 0) "a" "c" 5 1 =
        check_cooldown [] "a" "c" 5 1 :=
  ⟨by decide, by decide, by decide, by decide,
    claim_C10_cooldown_key.2 "a" "b" "a" "c" [] 5 1 0
      (by decide) (by decide) (by decide) (by decide) (by decide)⟩

/-- C1 (code bug): the cooldown gate of `evaluate_metrics` never reads a
rule's own `cooldown_minutes`: the evaluation result is invariant under
rewriting every rule's per-rule cooldown, and concretely, with a rule
whose per-rule cooldown (1 minute) has already elapsed at minute 2 — so
the rule's own check says "not in cooldown" and the condition matches —
the code still produces no alert, because `_check_cooldown` was invoked
with the 5-minute default instead. -/
theorem claim_C1_per_rule_cooldown_unread :
    (∀ (hostId mt : String) (md : Value) (now c' : ℤ)
        (rules : List AlertRule) (cds : Cooldowns) (acc : List Alert),
      evalLoop hostId mt md now
          (rules.map (fun r => { r with cooldownMinutes := c' })) cds acc =
        evalLoop hostId mt md now rules cds acc) ∧
    check_cooldown [("r:h", 0)] ruleHighCpu.id "h"
        ruleHighCpu.cooldownMinutes 2 = false ∧
    (evaluate_metrics ⟨[("r:h", 0)], ⟨[ruleHighCpu], some 2⟩⟩ none "h" "cpu"
        mdCpu95 2).2 = some [] ∧
    (evaluate_metrics ⟨[], ⟨[ruleHighCpu], some 2⟩⟩ none "h" "cpu"
        mdCpu95 2).2.map List.length = some 1 := by
  refine ⟨?_, by decide, by decide, by decide⟩
  intro hostId mt md now c' rules
  induction rules with
  | nil => intro cds acc; rfl
  | cons r rest ih =>
      intro cds acc
      simp only [List.map_cons, evalLoop]
      have e1 : ({ r with cooldownMinutes := c' } : AlertRule).metricType =
        r.metricType := rfl
      have e2 : ({ r with cooldownMinutes := c' } : AlertRule).id = r.id := rfl
      have e3 : ruleStep { r with cooldownMinutes := c' } hostId md =
        ruleStep r hostId md := rfl
      rw [e1, e2, e3]
      split_ifs with h1 h2
      · exact ih cds acc
      · exact ih cds acc
      · cases hrs : ruleStep r hostId md with
        | none => rfl
        | some o =>
            cases o with
            | none => simp only [hrs]; exact ih cds acc
            | some a => simp only [hrs]; exact ih _ _

/-- C5 (code bug): with a rule whose per-rule cooldown is 1 minute, a
matching evaluation at minute 0 fires once and records the cooldown; a
matching evaluation at minute 2 — after the rule's cooldown window — fires
no second alert (the code gates on the 5-minute default, never the rule's
value), and only fires again once 5 minutes have elapsed; a different host
under the same rule is meanwhile unaffected. -/
theorem claim_C5_cooldown_window :
    ruleHighCpu.cooldownMinutes = 1 ∧
    (evaluate_metrics ⟨[], ⟨[ruleHighCpu], some 0⟩⟩ none "h" "cpu"
        mdCpu95 0).1.cooldowns = [("r:h", 0)] ∧
    (evaluate_metrics ⟨[], ⟨[ruleHighCpu], some 0⟩⟩ none "h" "cpu"
        mdCpu95 0).2.map List.length = some 1 ∧
    (evaluate_metrics ⟨[("r:h", 0)], ⟨[ruleHighCpu], some 2⟩⟩ none "h" "cpu"
        mdCpu95 2).2 = some [] ∧
    (evaluate_metrics ⟨[("r:h", 0)], ⟨[ruleHighCpu], some 2⟩⟩ none "h2" "cpu"
        mdCpu95 2).2.map List.length = some 1 ∧
    (evaluate_metrics ⟨[("r:h", 0)], ⟨[ruleHighCpu], some 5⟩⟩ none "h" "cpu"
        mdCpu95 5).2.map List.length = some 1 := by
  refine ⟨rfl, by decide, by decide, by decide, by decide, by decide⟩

theorem triple_flat_nested (f o : String) (t : ℚ) :
    extractConditionTriple (nestedForm f o t) =
      extractConditionTriple (flatForm f o t) := by
  by_cases hf1 : f = "field"
  · subst hf1
    by_cases ho : o = ""
    · subst ho
      rfl
    · simp [extractConditionTriple, nestedForm, flatForm, dictGet,
        assocLookup, condValid, pyTruthy, Value.isNull, scanNested, ho]
  · by_cases hf2 : f = "operator"
    · subst hf2
      by_cases ho : o = ""
      · subst ho
        rfl
      · simp [extractConditionTriple, nestedForm, flatForm, dictGet,
          assocLookup, condValid, pyTruthy, Value.isNull, scanNested, ho]
    · by_cases hf3 : f = "threshold"
      · subst hf3
        by_cases ho : o = ""
        · subst ho
          rfl
        · simp [extractConditionTriple, nestedForm, flatForm, dictGet,
            assocLookup, condValid, pyTruthy, Value.isNull, scanNested, ho]
      · by_cases hf0 : f = ""
        · subst hf0
          simp [extractConditionTriple, nestedForm, flatForm, dictGet,
            assocLookup, condValid, pyTruthy, Value.isNull, scanNested]
        · by_cases ho : o = ""
          · subst ho
            simp [extractConditionTriple, nestedForm, flatForm, dictGet,
              assocLookup, condValid, pyTruthy, Value.isNull, scanNested,
              hf1, hf2, hf3, hf0]
          · simp [extractConditionTriple, nestedForm, flatForm, dictGet,
              assocLookup, condValid, pyTruthy, Value.isNull, scanNested,
              hf1, hf2, hf3, hf0, ho]

theorem ruleStep_flat_nested (base : AlertRule) (f o : String) (t : ℚ)
    (hostId : String) (md : Value) :
    ruleStep { base with condition := nestedForm f o t } hostId md =
      ruleStep { base with condition := flatForm f o t } hostId md := by
  unfold ruleStep
  rw [show ({ base with condition := nestedForm f o t } : AlertRule).condition
      = nestedForm f o t from rfl,
    show ({ base with condition := flatForm f o t } : AlertRule).condition
      = flatForm f o t from rfl,
    triple_flat_nested]

theorem evalLoop_flat_nested (f o : String) (t : ℚ) (base : AlertRule)
    (hostId mt : String) (md : Value) (now : ℤ) :
    ∀ (pre post : List AlertRule) (cds : Cooldowns) (acc : List Alert),
      evalLoop hostId mt md now
          (pre ++ { base with condition := nestedForm f o t } :: post) cds acc =
        evalLoop hostId mt md now
          (pre ++ { base with condition := flatForm f o t } :: post) cds acc := by
  intro pre
  induction pre with
  | nil =>
      intro post cds acc
      simp only [List.nil_append, evalLoop, ruleStep_flat_nested]
  | cons r pre' ih =>
      intro post cds acc
      simp only [List.cons_append, evalLoop]
      split_ifs with h1 h2
      · exact ih post cds acc
      · exact ih post cds acc
      · cases hrs : ruleStep r hostId md with
        | none => rfl
        | some o' =>
            cases o' with
            | none => simp only [hrs]; exact ih post cds acc
            | some a => simp only [hrs]; exact ih post _ _

/-- C4: the two condition shapes are evaluated identically — replacing a
rule whose condition is the nested form `{f: {o: t}}` by the same rule
with the flat form `{"field": f, "operator": o, "threshold": t}` changes
neither the rule loop's outcome (in any position, for any payload, host,
cooldown table and time) nor the alerts and cooldowns produced by
`evaluate_metrics` when the rule is fetched. -/
theorem claim_C4_condition_shapes (f o : String) (t : ℚ) (base : AlertRule)
    (st : EngineState) (hostId mt : String) (md : Value) (now : ℤ)
    (h : needsRefresh st.cache now = true) :
    (∀ (pre post : List AlertRule) (cds : Cooldowns) (acc : List Alert),
      evalLoop hostId mt md now
          (pre ++ { base with condition := nestedForm f o t } :: post) cds acc =
        evalLoop hostId mt md now
          (pre ++ { base with condition := flatForm f o t } :: post) cds acc) ∧
    (evaluate_metrics st (some [{ base with condition := nestedForm f o t }])
        hostId mt md now).1.cooldowns =
      (evaluate_metrics st (some [{ base with condition := flatForm f o t }])
        hostId mt md now).1.cooldowns ∧
    (evaluate_metrics st (some [{ base with condition := nestedForm f o t }])
        hostId mt md now).2 =
      (evaluate_metrics st (some [{ base with condition := flatForm f o t }])
        hostId mt md now).2 := by
  refine ⟨evalLoop_flat_nested f o t base hostId mt md now, ?_, ?_⟩ <;>
  · simp only [evaluate_metrics, get_active_rules, h, if_pos]
    have := evalLoop_flat_nested f o t base hostId mt md now [] []
      st.cooldowns []
    simp only [List.nil_append] at this
    simp [this]

/-- C4 (witness): `claim_C4_condition_shapes` at the spec's scenario —
condition `{"cpu.percent": {"gt": 90}}` against a payload with
`cpu.percent = 92` fires identically to its flat-form equivalent. -/
theorem claim_C4_condition_shapes_witness :
    needsRefresh (⟨[], ⟨[], none⟩⟩ : EngineState).cache 0 = true ∧
      (evaluate_metrics ⟨[], ⟨[], none⟩⟩
          (some [{ ruleHighCpu with
            condition := nestedForm "cpu.percent" "gt" 90 }])
          "h" "cpu" mdNested92 0).2 =
        (evaluate_metrics ⟨[], ⟨[], none⟩⟩
          (some [{ ruleHighCpu with
            condition := flatForm "cpu.percent" "gt" 90 }])
          "h" "cpu" mdNested92 0).2 :=
  ⟨rfl,
    (claim_C4_condition_shapes "cpu.percent" "gt" 90 ruleHighCpu
      ⟨[], ⟨[], none⟩⟩ "h" "cpu" mdNested92 0 rfl).2.2⟩

/-- C6 (witness): `claim_C6_broadcast` at a two-connection registry where
connection 0's send fails: 0 still gets its send attempt, then is removed
from the all-connections set and from host `"h"`'s subscriber set. -/
theorem claim_C6_broadcast_witness :
    (0 : Conn) ∈ cmTwo.active ∧
      (0 : Conn) ∈ (broadcast cmTwo sendOkExceptZero).1 ∧
      (0 : Conn) ∉ (broadcast cmTwo sendOkExceptZero).2.active ∧
      (0 : Conn) ∉ subsOf (broadcast cmTwo sendOkExceptZero).2 "h" := by
  have h := claim_C6_broadcast cmTwo sendOkExceptZero 0 (by decide)
  exact ⟨by decide, h.1, (h.2 rfl).1, (h.2 rfl).2 "h"⟩

end HomelabMonitor
